import Mathlib

/-
Shallow embedding of the Stacks DEX pool contract (V4, `pool-v5`), the
constant-product AMM with LP shares and bulk operations.

Modelling conventions:
* Clarity `uint` is modelled as `Nat`.  Clarity aborts on overflow and on
  division by zero instead of wrapping, so no `% 2^128` is needed; any
  execution that Clarity completes yields the same numbers as the `Nat`
  model.  Truncating division and truncating subtraction match Clarity's
  `/` and the guarded uses of `-` in this contract (every subtraction in
  the source is dominated by an assert making it non-truncating).
* `principal` is modelled as `Nat`.
* The external SIP-010 token-transfer capability is modelled as always
  succeeding; token contracts hold no pool state, so only the pool's own
  variables and the LP-share map are carried in `PoolState`.
* Each `define-public` function becomes `... → PoolState × Response α`:
  the updated state together with the returned `(ok ...)` / `(err u...)`.
  All asserts in the source precede all state writes (transfers being
  modelled as succeeding), so an erring call returns the state unchanged,
  exactly as the Clarity interpreter does.
* `(map f items)` in the bulk entry points threads state through the
  items left to right and collects each item's individual response; a
  direct intra-contract call to a public function has no rollback frame
  of its own, so a failing item contributes its `(err ...)` to the list
  while earlier items' writes stay.
-/

namespace StacksDex

abbrev Principal := Nat

/-- `(define-constant FEE_BPS u30)` -/
def FEE_BPS : Nat := 30

/-- `(define-constant BPS_DENOM u10000)` -/
def BPS_DENOM : Nat := 10000

/-- `(define-constant MINIMUM_LIQUIDITY u1000)` -/
def MINIMUM_LIQUIDITY : Nat := 1000

def ERR_ZERO_INPUT : Nat := 100
def ERR_ZERO_RESERVES : Nat := 101
def ERR_DEADLINE_EXPIRED : Nat := 102
def ERR_SLIPPAGE_EXCEEDED : Nat := 103
def ERR_INSUFFICIENT_LIQUIDITY : Nat := 104
def ERR_ALREADY_INITIALIZED : Nat := 200
def ERR_NOT_INITIALIZED : Nat := 201
def ERR_INSUFFICIENT_LP_BALANCE : Nat := 202
def ERR_ZERO_SHARES : Nat := 203
def ERR_MIN_LIQUIDITY : Nat := 204

/-- Clarity's `(response α uint)`. -/
inductive Response (α : Type) where
  | ok (val : α)
  | err (code : Nat)
deriving Repr, DecidableEq

def Response.isOk {α : Type} : Response α → Bool
  | .ok _ => true
  | .err _ => false

/-- The contract's data vars plus the `lp-balances` map (as an
association list; `map-set` below keeps keys unique). -/
structure PoolState where
  feeRecipient : Option Principal
  reserveX : Nat
  reserveY : Nat
  totalSupply : Nat
  totalFeesX : Nat
  totalFeesY : Nat
  lpBalances : List (Principal × Nat)
deriving Repr, DecidableEq

/-- The deployed contract before any call: every var at its declared
initial value, the map empty. -/
def initialState : PoolState :=
  { feeRecipient := none, reserveX := 0, reserveY := 0, totalSupply := 0,
    totalFeesX := 0, totalFeesY := 0, lpBalances := [] }

/-- `(default-to u0 (map-get? lp-balances user))` on a raw list. -/
def lookupBalance : List (Principal × Nat) → Principal → Nat
  | [], _ => 0
  | (k, v) :: rest, u => if k = u then v else lookupBalance rest u

/-- `(map-set lp-balances k v)`: overwrite the entry if present,
otherwise add it. -/
def mapSet : List (Principal × Nat) → Principal → Nat → List (Principal × Nat)
  | [], k, v => [(k, v)]
  | (k', v') :: rest, k, v =>
    if k' = k then (k', v) :: rest else (k', v') :: mapSet rest k v

/-- `(get-lp-balance user)` -/
def getLpBalance (st : PoolState) (user : Principal) : Nat :=
  lookupBalance st.lpBalances user

/-- Total of all issued LP shares recorded in the map. -/
def sumBalances : List (Principal × Nat) → Nat
  | [] => 0
  | (_, v) :: rest => v + sumBalances rest

/-- `(sqrti n)`: the contract's fixed-iteration Newton square root. -/
def sqrti (n : Nat) : Nat :=
  if n ≤ 1 then n
  else if n ≤ 3 then 1
  else
    let x0 := n / 2
    let x1 := (x0 + n / x0) / 2
    let x2 := (x1 + n / x1) / 2
    let x3 := (x2 + n / x2) / 2
    let x4 := (x3 + n / x3) / 2
    let x5 := (x4 + n / x4) / 2
    let x6 := (x5 + n / x5) / 2
    let x7 := (x6 + n / x6) / 2
    if x7 * x7 ≤ n then x7 else x7 - 1

/-- Result record of `quote-x-for-y` / `quote-y-for-x`: the output
amount and the fee. -/
structure QuoteOut where
  amount : Nat
  fee : Nat
deriving Repr, DecidableEq

/-- `(quote-x-for-y dx)` -/
def quoteXForY (st : PoolState) (dx : Nat) : Response QuoteOut :=
  let rx := st.reserveX
  let ry := st.reserveY
  if ¬ (0 < dx) then .err ERR_ZERO_INPUT
  else if ¬ (0 < rx ∧ 0 < ry) then .err ERR_ZERO_RESERVES
  else
    let fee := dx * FEE_BPS / BPS_DENOM
    let dxToPool := dx - fee
    let dy := ry * dxToPool / (rx + dxToPool)
    if ¬ (dy < ry) then .err ERR_INSUFFICIENT_LIQUIDITY
    else .ok ⟨dy, fee⟩

/-- `(quote-y-for-x dy)` -/
def quoteYForX (st : PoolState) (dy : Nat) : Response QuoteOut :=
  let rx := st.reserveX
  let ry := st.reserveY
  if ¬ (0 < dy) then .err ERR_ZERO_INPUT
  else if ¬ (0 < rx ∧ 0 < ry) then .err ERR_ZERO_RESERVES
  else
    let fee := dy * FEE_BPS / BPS_DENOM
    let dyToPool := dy - fee
    let dx := rx * dyToPool / (ry + dyToPool)
    if ¬ (dx < rx) then .err ERR_INSUFFICIENT_LIQUIDITY
    else .ok ⟨dx, fee⟩

/-- Result record of `quote-add-liquidity`. -/
structure QuoteAddOut where
  shares : Nat
  optimalX : Nat
  optimalY : Nat
deriving Repr, DecidableEq

/-- `(quote-add-liquidity amount-x amount-y)` -/
def quoteAddLiquidity (st : PoolState) (amountX amountY : Nat) :
    Response QuoteAddOut :=
  let rx := st.reserveX
  let ry := st.reserveY
  let supply := st.totalSupply
  if supply = 0 then
    .ok ⟨sqrti (amountX * amountY), amountX, amountY⟩
  else
    let sharesFromX := amountX * supply / rx
    let sharesFromY := amountY * supply / ry
    let shares := if sharesFromX < sharesFromY then sharesFromX else sharesFromY
    .ok ⟨shares, shares * rx / supply, shares * ry / supply⟩

/-- Result record of the swap entry points. -/
structure SwapOut where
  dx : Nat
  dy : Nat
  fee : Nat
  recipient : Principal
deriving Repr, DecidableEq

/-- `(swap-x-for-y token-x token-y dx min-dy recipient deadline)`.
`height` is `stacks-block-height`, `sender` is `tx-sender`.  The
`fee-addr` let-binding's `unwrap!` runs before any `asserts!`, so an
unset fee recipient errs first. -/
def swapXForY (height : Nat) (sender : Principal) (st : PoolState)
    (dx minDy : Nat) (recipient : Principal) (deadline : Nat) :
    PoolState × Response SwapOut :=
  let rx := st.reserveX
  let ry := st.reserveY
  match st.feeRecipient with
  | none => (st, .err ERR_NOT_INITIALIZED)
  | some feeAddr =>
    if ¬ (height ≤ deadline) then (st, .err ERR_DEADLINE_EXPIRED)
    else if ¬ (0 < dx) then (st, .err ERR_ZERO_INPUT)
    else if ¬ (0 < rx ∧ 0 < ry) then (st, .err ERR_ZERO_RESERVES)
    else
      let fee := dx * FEE_BPS / BPS_DENOM
      let dxToPool := dx - fee
      let dy := ry * dxToPool / (rx + dxToPool)
      if ¬ (minDy ≤ dy) then (st, .err ERR_SLIPPAGE_EXCEEDED)
      else if ¬ (dy < ry) then (st, .err ERR_INSUFFICIENT_LIQUIDITY)
      else
        -- fee transfer (skipped when sender = feeAddr) and the two token
        -- transfers are external effects modelled as succeeding
        let _ := (sender, feeAddr)
        ({ st with
            reserveX := rx + dxToPool
            reserveY := ry - dy
            totalFeesX := st.totalFeesX + fee },
         .ok ⟨dx, dy, fee, recipient⟩)

/-- `(swap-y-for-x token-x token-y dy min-dx recipient deadline)` -/
def swapYForX (height : Nat) (sender : Principal) (st : PoolState)
    (dy minDx : Nat) (recipient : Principal) (deadline : Nat) :
    PoolState × Response SwapOut :=
  let rx := st.reserveX
  let ry := st.reserveY
  match st.feeRecipient with
  | none => (st, .err ERR_NOT_INITIALIZED)
  | some feeAddr =>
    if ¬ (height ≤ deadline) then (st, .err ERR_DEADLINE_EXPIRED)
    else if ¬ (0 < dy) then (st, .err ERR_ZERO_INPUT)
    else if ¬ (0 < rx ∧ 0 < ry) then (st, .err ERR_ZERO_RESERVES)
    else
      let fee := dy * FEE_BPS / BPS_DENOM
      let dyToPool := dy - fee
      let dx := rx * dyToPool / (ry + dyToPool)
      if ¬ (minDx ≤ dx) then (st, .err ERR_SLIPPAGE_EXCEEDED)
      else if ¬ (dx < rx) then (st, .err ERR_INSUFFICIENT_LIQUIDITY)
      else
        let _ := (sender, feeAddr)
        ({ st with
            reserveX := rx - dx
            reserveY := ry + dyToPool
            totalFeesY := st.totalFeesY + fee },
         .ok ⟨dx, dy, fee, recipient⟩)

/-- Result record of `initialize-pool`, `add-liquidity`,
`remove-liquidity`. -/
structure LiquidityOut where
  shares : Nat
  x : Nat
  y : Nat
deriving Repr, DecidableEq

/-- `(initialize-pool token-x token-y amount-x amount-y)` -/
def initializePool (sender : Principal) (st : PoolState)
    (amountX amountY : Nat) : PoolState × Response LiquidityOut :=
  if ¬ (st.reserveX = 0 ∧ st.reserveY = 0) then
    (st, .err ERR_ALREADY_INITIALIZED)
  else if ¬ (0 < amountX ∧ 0 < amountY) then (st, .err ERR_ZERO_INPUT)
  else
    let shares := sqrti (amountX * amountY)
    if ¬ (MINIMUM_LIQUIDITY < shares) then (st, .err ERR_MIN_LIQUIDITY)
    else
      ({ st with
          feeRecipient := some sender
          reserveX := amountX
          reserveY := amountY
          totalSupply := shares
          lpBalances := mapSet st.lpBalances sender shares },
       .ok ⟨shares, amountX, amountY⟩)

/-- `(add-liquidity token-x token-y amount-x amount-y min-shares)` -/
def addLiquidity (sender : Principal) (st : PoolState)
    (amountX amountY minShares : Nat) : PoolState × Response LiquidityOut :=
  let rx := st.reserveX
  let ry := st.reserveY
  let supply := st.totalSupply
  if ¬ (0 < supply) then (st, .err ERR_NOT_INITIALIZED)
  else if ¬ (0 < amountX ∧ 0 < amountY) then (st, .err ERR_ZERO_INPUT)
  else
    let sharesFromX := amountX * supply / rx
    let sharesFromY := amountY * supply / ry
    let shares := if sharesFromX < sharesFromY then sharesFromX else sharesFromY
    let actualX := shares * rx / supply
    let actualY := shares * ry / supply
    if ¬ (minShares ≤ shares) then (st, .err ERR_SLIPPAGE_EXCEEDED)
    else if ¬ (0 < shares) then (st, .err ERR_ZERO_SHARES)
    else
      ({ st with
          reserveX := rx + actualX
          reserveY := ry + actualY
          totalSupply := supply + shares
          lpBalances := mapSet st.lpBalances sender
            (getLpBalance st sender + shares) },
       .ok ⟨shares, actualX, actualY⟩)

/-- `(remove-liquidity token-x token-y shares min-x min-y)` -/
def removeLiquidity (sender : Principal) (st : PoolState)
    (shares minX minY : Nat) : PoolState × Response LiquidityOut :=
  let rx := st.reserveX
  let ry := st.reserveY
  let supply := st.totalSupply
  let userBalance := getLpBalance st sender
  if ¬ (0 < supply) then (st, .err ERR_NOT_INITIALIZED)
  else if ¬ (0 < shares) then (st, .err ERR_ZERO_INPUT)
  else if ¬ (shares ≤ userBalance) then (st, .err ERR_INSUFFICIENT_LP_BALANCE)
  else
    let amountX := shares * rx / supply
    let amountY := shares * ry / supply
    if ¬ (minX ≤ amountX) then (st, .err ERR_SLIPPAGE_EXCEEDED)
    else if ¬ (minY ≤ amountY) then (st, .err ERR_SLIPPAGE_EXCEEDED)
    else
      ({ st with
          reserveX := rx - amountX
          reserveY := ry - amountY
          totalSupply := supply - shares
          lpBalances := mapSet st.lpBalances sender (userBalance - shares) },
       .ok ⟨shares, amountX, amountY⟩)

/-- One element of the `bulk-swap-x-for-y` list (the two trait
references carry no state and are dropped). -/
structure SwapXItem where
  dx : Nat
  minDy : Nat
  recipient : Principal
  deadline : Nat
deriving Repr, DecidableEq

/-- One element of the `bulk-swap-y-for-x` list. -/
structure SwapYItem where
  dy : Nat
  minDx : Nat
  recipient : Principal
  deadline : Nat
deriving Repr, DecidableEq

/-- One element of the `bulk-add-liquidity` list. -/
structure AddLiqItem where
  amountX : Nat
  amountY : Nat
  minShares : Nat
deriving Repr, DecidableEq

/-- One element of the `bulk-remove-liquidity` list. -/
structure RemLiqItem where
  shares : Nat
  minX : Nat
  minY : Nat
deriving Repr, DecidableEq

/-- Clarity's `(map f items)` over a stateful `f`: items are evaluated
left to right, each seeing the state left by the previous one, and the
individual responses are collected.  A direct intra-contract call to a
public function has no rollback frame, so an erring item simply
contributes its `err` to the list. -/
def runBatch {α β : Type} (f : PoolState → α → PoolState × Response β) :
    PoolState → List α → PoolState × List (Response β)
  | st, [] => (st, [])
  | st, item :: rest =>
    let fst := f st item
    let next := runBatch f fst.1 rest
    (next.1, fst.2 :: next.2)

/-- `(bulk-swap-x-for-y swaps)` -/
def bulkSwapXForY (height : Nat) (sender : Principal) (st : PoolState)
    (swaps : List SwapXItem) : PoolState × Response (List (Response SwapOut)) :=
  if ¬ (0 < swaps.length) then (st, .err ERR_ZERO_INPUT)
  else
    let out := runBatch
      (fun s it => swapXForY height sender s it.dx it.minDy it.recipient it.deadline)
      st swaps
    (out.1, .ok out.2)

/-- `(bulk-swap-y-for-x swaps)` -/
def bulkSwapYForX (height : Nat) (sender : Principal) (st : PoolState)
    (swaps : List SwapYItem) : PoolState × Response (List (Response SwapOut)) :=
  if ¬ (0 < swaps.length) then (st, .err ERR_ZERO_INPUT)
  else
    let out := runBatch
      (fun s it => swapYForX height sender s it.dy it.minDx it.recipient it.deadline)
      st swaps
    (out.1, .ok out.2)

/-- `(bulk-add-liquidity liquidity-additions)` -/
def bulkAddLiquidity (sender : Principal) (st : PoolState)
    (adds : List AddLiqItem) : PoolState × Response (List (Response LiquidityOut)) :=
  if ¬ (0 < adds.length) then (st, .err ERR_ZERO_INPUT)
  else
    let out := runBatch
      (fun s it => addLiquidity sender s it.amountX it.amountY it.minShares)
      st adds
    (out.1, .ok out.2)

/-- `(bulk-remove-liquidity liquidity-removals)` -/
def bulkRemoveLiquidity (sender : Principal) (st : PoolState)
    (removals : List RemLiqItem) : PoolState × Response (List (Response LiquidityOut)) :=
  if ¬ (0 < removals.length) then (st, .err ERR_ZERO_INPUT)
  else
    let out := runBatch
      (fun s it => removeLiquidity sender s it.shares it.minX it.minY)
      st removals
    (out.1, .ok out.2)

/-- Pool states reachable from the deployed contract through any
sequence of public calls (successful or failing). -/
inductive Reachable : PoolState → Prop where
  | deployed : Reachable initialState
  | stepInitialize {st : PoolState} (sender : Principal) (ax ay : Nat) :
      Reachable st → Reachable (initializePool sender st ax ay).1
  | stepAddLiquidity {st : PoolState} (sender : Principal) (ax ay ms : Nat) :
      Reachable st → Reachable (addLiquidity sender st ax ay ms).1
  | stepRemoveLiquidity {st : PoolState} (sender : Principal) (sh mx my : Nat) :
      Reachable st → Reachable (removeLiquidity sender st sh mx my).1
  | stepSwapX {st : PoolState} (height : Nat) (sender : Principal)
      (dx minDy : Nat) (recipient : Principal) (deadline : Nat) :
      Reachable st → Reachable (swapXForY height sender st dx minDy recipient deadline).1
  | stepSwapY {st : PoolState} (height : Nat) (sender : Principal)
      (dy minDx : Nat) (recipient : Principal) (deadline : Nat) :
      Reachable st → Reachable (swapYForX height sender st dy minDx recipient deadline).1
  | stepBulkSwapX {st : PoolState} (height : Nat) (sender : Principal)
      (swaps : List SwapXItem) :
      Reachable st → Reachable (bulkSwapXForY height sender st swaps).1
  | stepBulkSwapY {st : PoolState} (height : Nat) (sender : Principal)
      (swaps : List SwapYItem) :
      Reachable st → Reachable (bulkSwapYForX height sender st swaps).1
  | stepBulkAdd {st : PoolState} (sender : Principal) (adds : List AddLiqItem) :
      Reachable st → Reachable (bulkAddLiquidity sender st adds).1
  | stepBulkRemove {st : PoolState} (sender : Principal) (removals : List RemLiqItem) :
      Reachable st → Reachable (bulkRemoveLiquidity sender st removals).1

/-- The pool right after `initialize-pool` with the spec's concrete
scenario amounts `(100000000, 200000000)`, initialized by account `0`. -/
def poolA : PoolState := (initializePool 0 initialState 100000000 200000000).1

/-- The pool right after `initialize-pool` with the test suite's bulk
scenario amounts `(1000000000, 2000000000)`. -/
def poolB : PoolState := (initializePool 0 initialState 1000000000 2000000000).1

/-- A state with the fee recipient set but both reserves zero (used to
exercise the zero-reserves check in isolation). -/
def poolNoReserves : PoolState := { initialState with feeRecipient := some 0 }

/-- The bulk call of the test suite's mixed-success scenario: first item
a valid swap, second item violating its own slippage bound. -/
def bulkDemo : PoolState × Response (List (Response SwapOut)) :=
  bulkSwapXForY 0 1 poolB
    [⟨10000000, 18000000, 1, 20⟩, ⟨10000000, 20000000, 2, 20⟩]

/-- The initializing account of `poolA` burning its entire share
balance in one `remove-liquidity` call. -/
def drainDemo : PoolState × Response LiquidityOut :=
  removeLiquidity 0 poolA 78125000000083 0 0

/-- Modelled from the spec (§4.1): one Newton refinement step
`x ↦ (x + n/x) / 2` in truncating integer division. -/
def newtonStep (n x : Nat) : Nat := (x + n / x) / 2

/-- Modelled from the spec (§4.1): `isqrt` returns `n` when `n ≤ 1`,
`1` when `n ≤ 3`, and otherwise the value `x7` obtained from
`x0 = n/2` by the Newton recurrence (the spec's step sequence
`x0, x1, ..., x7`), decremented by one when `x7 * x7 > n`. -/
def sqrtiSpec (n : Nat) : Nat :=
  if n ≤ 1 then n
  else if n ≤ 3 then 1
  else
    let x7 := newtonStep n (newtonStep n (newtonStep n (newtonStep n
      (newtonStep n (newtonStep n (newtonStep n (n / 2)))))))
    if x7 * x7 ≤ n then x7 else x7 - 1

/-- The share-accounting invariant together with the auxiliary fact
needed to push it through re-initialization: whenever either reserve is
zero the supply is zero as well. -/
def Inv (st : PoolState) : Prop :=
  sumBalances st.lpBalances = st.totalSupply ∧
  ((st.reserveX = 0 ∨ st.reserveY = 0) → st.totalSupply = 0)

/-- Claim C5: `sqrti` returns `n` for `n ≤ 1`, `1` for `1 < n ≤ 3`, and
otherwise applies the Newton refinement `x ↦ (x + n/x)/2` to `x0 = n/2`
up through `x7` (the spec's eight values `x0 ... x7`), returning `x7`
when `x7 * x7 ≤ n` and `x7 - 1` otherwise — i.e. the contract's square
root coincides with the spec's description at every input. -/
theorem sqrti_eq_spec : ∀ n : Nat, sqrti n = sqrtiSpec n := by
  intro n
  rfl

/-- Claim C4 counterexample: initializing with
`(100000000, 200000000)` succeeds but issues `78125000000083` shares,
not `14142` (nor the exact integer square root `141421356`). -/
theorem initialize_concrete_spec_shares_refuted :
    (initializePool 0 initialState 100000000 200000000).2 =
      Response.ok ⟨78125000000083, 100000000, 200000000⟩ ∧
    (78125000000083 : Nat) ≠ 14142 := by
  constructor
  · rfl
  · decide

/-- Claim C4 (amended): initializing the uninitialized pool with
`(100000000, 200000000)` succeeds and issues exactly
`sqrti (100000000 * 200000000) = 78125000000083` shares to the
initializing account, setting `totalShares` to that value; the exact
integer square root of the product would be `141421356`. -/
theorem initialize_concrete_shares :
    (initializePool 0 initialState 100000000 200000000).2 =
      Response.ok ⟨sqrti (100000000 * 200000000), 100000000, 200000000⟩ ∧
    sqrti (100000000 * 200000000) = 78125000000083 ∧
    poolA.totalSupply = 78125000000083 ∧
    getLpBalance poolA 0 = 78125000000083 ∧
    141421356 * 141421356 ≤ 100000000 * 200000000 ∧
    100000000 * 200000000 < 141421357 * 141421357 := by
  refine ⟨rfl, rfl, rfl, rfl, by decide, by decide⟩

/-- Claim C2 counterexample: after initialization, one successful
`remove-liquidity` call burning the entire share supply brings both
reserves to zero. -/
theorem removeLiquidity_full_burn_zeroes_reserves :
    (initializePool 0 initialState 100000000 200000000).2 =
      Response.ok ⟨78125000000083, 100000000, 200000000⟩ ∧
    drainDemo.2 = Response.ok ⟨78125000000083, 100000000, 200000000⟩ ∧
    drainDemo.1.reserveX = 0 ∧
    drainDemo.1.reserveY = 0 := by
  refine ⟨rfl, rfl, rfl, rfl⟩

/-- Claim C6 counterexample: on an uninitialized pool with an expired
deadline, `swap-x-for-y` fails with `ERR_NOT_INITIALIZED` (`u201`), not
`ERR_DEADLINE_EXPIRED` (`u102`): the `fee-addr` let binding's `unwrap!`
runs before the deadline assert. -/
theorem swap_uninitialized_beats_deadline :
    initialState.feeRecipient = none ∧
    (5 : Nat) < 10 ∧
    (swapXForY 10 1 initialState 1 0 2 5).2 = Response.err ERR_NOT_INITIALIZED ∧
    ERR_NOT_INITIALIZED ≠ ERR_DEADLINE_EXPIRED := by
  refine ⟨rfl, by decide, rfl, by decide⟩

/-- Claim C1 (code-bug evaluation): the test suite's mixed batch — a
valid swap followed by a slippage-violating one — does not roll back:
the call returns `ok` of the per-item responses with the second item's
`err u103` embedded in the list, and the first item's reserve changes
persist in the final state instead of reverting to the pre-batch
reserves. -/
theorem bulkSwapXForY_failure_keeps_earlier_effects :
    poolB.reserveX = 1000000000 ∧ poolB.reserveY = 2000000000 ∧
    bulkDemo.2 =
      Response.ok [Response.ok ⟨10000000, 19743160, 30000, 1⟩,
        Response.err ERR_SLIPPAGE_EXCEEDED] ∧
    (bulkDemo.2).isOk = true ∧
    bulkDemo.1.reserveX = 1009970000 ∧
    bulkDemo.1.reserveY = 1980256840 := by
  refine ⟨rfl, rfl, rfl, rfl, rfl, rfl⟩

/-- Claim C3 counterexample: a successful `swap-x-for-y` of
`dx = 10000000` against reserves `(100000000, 200000000)` returns
`dy = 18132217` (with `fee = 30000`), not `dy = 18181818`; and a
successful `swap-y-for-x` of `dy = 20000000` against the same reserves
returns `dx = 9066108` (with `fee = 60000`), not `dx = 9090909`. -/
theorem swap_concrete_spec_values_refuted :
    poolA.reserveX = 100000000 ∧ poolA.reserveY = 200000000 ∧
    (swapXForY 0 1 poolA 10000000 0 2 10).2 =
      Response.ok ⟨10000000, 18132217, 30000, 2⟩ ∧
    (swapYForX 0 1 poolA 20000000 0 2 10).2 =
      Response.ok ⟨9066108, 20000000, 60000, 2⟩ ∧
    (18132217 : Nat) ≠ 18181818 ∧
    (9066108 : Nat) ≠ 9090909 := by
  refine ⟨rfl, rfl, rfl, rfl, by decide, by decide⟩

/-- Claim C3 (amended): against reserves `(100000000, 200000000)`,
every successful `swap-x-for-y` of `dx = 10000000` returns
`dy = 18132217` with `fee = 30000` (the quote is taken on the net input
`dx - fee`), and every successful `swap-y-for-x` of `dy = 20000000`
returns `dx = 9066108` with `fee = 60000`. -/
theorem swap_concrete_values :
    (∀ (h s : Nat) (st : PoolState) (minDy rec dl : Nat),
      st.reserveX = 100000000 → st.reserveY = 200000000 →
      st.feeRecipient ≠ none → h ≤ dl → minDy ≤ 18132217 →
      (swapXForY h s st 10000000 minDy rec dl).2 =
        Response.ok ⟨10000000, 18132217, 30000, rec⟩) ∧
    (∀ (h s : Nat) (st : PoolState) (minDx rec dl : Nat),
      st.reserveX = 100000000 → st.reserveY = 200000000 →
      st.feeRecipient ≠ none → h ≤ dl → minDx ≤ 9066108 →
      (swapYForX h s st 20000000 minDx rec dl).2 =
        Response.ok ⟨9066108, 20000000, 60000, rec⟩) := by
  constructor
  · intro h s st minDy rec dl hrx hry hfr hdl hmin
    rcases hf : st.feeRecipient with _ | fa
    · exact absurd hf hfr
    · simp [swapXForY, hf, hrx, hry, hdl, hmin, FEE_BPS, BPS_DENOM]
  · intro h s st minDx rec dl hrx hry hfr hdl hmin
    rcases hf : st.feeRecipient with _ | fa
    · exact absurd hf hfr
    · simp [swapYForX, hf, hrx, hry, hdl, hmin, FEE_BPS, BPS_DENOM]

/-- Claim C3 witness: the amended statement applied to the concrete
initialized pool `poolA`. -/
theorem swap_concrete_values_witness :
    (swapXForY 0 1 poolA 10000000 0 2 10).2 =
      Response.ok ⟨10000000, 18132217, 30000, 2⟩ ∧
    (swapYForX 0 1 poolA 20000000 0 2 10).2 =
      Response.ok ⟨9066108, 20000000, 60000, 2⟩ :=
  ⟨swap_concrete_values.1 0 1 poolA 0 2 10 rfl rfl (by decide) (by decide) (by decide),
   swap_concrete_values.2 0 1 poolA 0 2 10 rfl rfl (by decide) (by decide) (by decide)⟩

/-- Claim C6 (amended): `swap-x-for-y` checks its preconditions in the
order: pool initialized (`u201`, via the `fee-addr` `unwrap!` in the
let bindings), then deadline (`u102`), then `dx > 0` (`u100`), then
both reserves positive (`u101`); the first violated check's code is
returned. -/
theorem swapXForY_precondition_order :
    ∀ (h s : Nat) (st : PoolState) (dx minDy rec dl : Nat),
      (st.feeRecipient = none →
        (swapXForY h s st dx minDy rec dl).2 = Response.err ERR_NOT_INITIALIZED) ∧
      (st.feeRecipient ≠ none → dl < h →
        (swapXForY h s st dx minDy rec dl).2 = Response.err ERR_DEADLINE_EXPIRED) ∧
      (st.feeRecipient ≠ none → h ≤ dl → dx = 0 →
        (swapXForY h s st dx minDy rec dl).2 = Response.err ERR_ZERO_INPUT) ∧
      (st.feeRecipient ≠ none → h ≤ dl → 0 < dx →
        ¬ (0 < st.reserveX ∧ 0 < st.reserveY) →
        (swapXForY h s st dx minDy rec dl).2 = Response.err ERR_ZERO_RESERVES) := by
  intro h s st dx minDy rec dl
  refine ⟨?_, ?_, ?_, ?_⟩
  · intro hf
    simp [swapXForY, hf]
  · intro hfr hlt
    rcases hf : st.feeRecipient with _ | fa
    · exact absurd hf hfr
    · have : ¬ (h ≤ dl) := by omega
      simp [swapXForY, hf, this]
  · intro hfr hdl hdx
    rcases hf : st.feeRecipient with _ | fa
    · exact absurd hf hfr
    · subst hdx
      simp [swapXForY, hf, hdl]
  · intro hfr hdl hdx hres
    rcases hf : st.feeRecipient with _ | fa
    · exact absurd hf hfr
    · simp [swapXForY, hf, hdl, hdx, hres]

/-- Claim C6 witness: each of the four ordered checks exercised at a
concrete input, in particular the uninitialized-pool case with an
already expired deadline returning `u201`. -/
theorem swapXForY_precondition_order_witness :
    (swapXForY 10 1 initialState 1 0 2 5).2 = Response.err ERR_NOT_INITIALIZED ∧
    (swapXForY 10 1 poolA 1 0 2 5).2 = Response.err ERR_DEADLINE_EXPIRED ∧
    (swapXForY 0 1 poolA 0 0 2 5).2 = Response.err ERR_ZERO_INPUT ∧
    (swapXForY 0 1 poolNoReserves 1 0 2 5).2 = Response.err ERR_ZERO_RESERVES :=
  ⟨(swapXForY_precondition_order 10 1 initialState 1 0 2 5).1 rfl,
   (swapXForY_precondition_order 10 1 poolA 1 0 2 5).2.1 (by decide) (by decide),
   (swapXForY_precondition_order 0 1 poolA 0 0 2 5).2.2.1 (by decide) (by decide) rfl,
   (swapXForY_precondition_order 0 1 poolNoReserves 1 0 2 5).2.2.2
     (by decide) (by decide) (by decide) (by decide)⟩

/-- Claim C9: for every `dx > 0` and every state with both reserves
positive, `quote-x-for-y` returns `ok` (its insufficient-liquidity
branch is unreachable), the quoted output is strictly below the `y`
reserve, and the fee `⌊dx * 30 / 10000⌋` never exceeds `dx`. -/
theorem quoteXForY_no_error_and_bounded :
    ∀ (st : PoolState) (dx : Nat), 0 < dx → 0 < st.reserveX → 0 < st.reserveY →
      ∃ q : QuoteOut, quoteXForY st dx = Response.ok q ∧
        q.amount < st.reserveY ∧
        q.fee = dx * FEE_BPS / BPS_DENOM ∧
        q.fee ≤ dx := by
  intro st dx hdx hrx hry
  have hfee : dx * FEE_BPS / BPS_DENOM ≤ dx := by
    have h1 : dx * FEE_BPS ≤ dx * BPS_DENOM := by
      exact Nat.mul_le_mul_left dx (by norm_num [FEE_BPS, BPS_DENOM])
    calc dx * FEE_BPS / BPS_DENOM ≤ dx * BPS_DENOM / BPS_DENOM :=
          Nat.div_le_div_right h1
      _ = dx := Nat.mul_div_cancel dx (by norm_num [BPS_DENOM])
  have hdy : st.reserveY * (dx - dx * FEE_BPS / BPS_DENOM) /
      (st.reserveX + (dx - dx * FEE_BPS / BPS_DENOM)) < st.reserveY := by
    have hpos : 0 < st.reserveX + (dx - dx * FEE_BPS / BPS_DENOM) := by omega
    rw [Nat.div_lt_iff_lt_mul hpos]
    nlinarith [Nat.mul_pos hry hrx]
  refine ⟨⟨_, _⟩, ?_, hdy, rfl, hfee⟩
  simp only [quoteXForY]
  rw [if_neg (by omega), if_neg (by push_neg; exact ⟨hrx, hry⟩),
    if_neg (by push_neg; exact hdy)]

/-- Claim C9 witness: the quote bound at `dx = 10000000` against the
concrete initialized pool. -/
theorem quoteXForY_no_error_and_bounded_witness :
    0 < (10000000 : Nat) ∧ 0 < poolA.reserveX ∧ 0 < poolA.reserveY ∧
    ∃ q : QuoteOut, quoteXForY poolA 10000000 = Response.ok q ∧
      q.amount < poolA.reserveY ∧
      q.fee = 10000000 * FEE_BPS / BPS_DENOM ∧
      q.fee ≤ 10000000 :=
  ⟨by decide, by decide, by decide,
   quoteXForY_no_error_and_bounded poolA 10000000 (by decide) (by decide) (by decide)⟩

/-- Claim C10: `quote-add-liquidity` is total on every pool state whose
divisions are defined (reserves positive whenever shares are
outstanding): it always returns `ok`, and on an uninitialized pool
(`totalShares = 0`) it returns `sqrti (amountX * amountY)` shares with
the optimal amounts equal to the inputs — so quoting `(0, 0)` there
yields zero shares rather than a zero-input error. -/
theorem quoteAddLiquidity_total :
    ∀ (st : PoolState) (ax ay : Nat),
      (0 < st.totalSupply → 0 < st.reserveX ∧ 0 < st.reserveY) →
      (∃ q : QuoteAddOut, quoteAddLiquidity st ax ay = Response.ok q) ∧
      (st.totalSupply = 0 →
        quoteAddLiquidity st ax ay = Response.ok ⟨sqrti (ax * ay), ax, ay⟩) := by
  intro st ax ay _hdiv
  constructor
  · by_cases hs : st.totalSupply = 0
    · refine ⟨⟨sqrti (ax * ay), ax, ay⟩, ?_⟩
      simp [quoteAddLiquidity, hs]
    · simp only [quoteAddLiquidity]
      rw [if_neg hs]
      exact ⟨_, rfl⟩
  · intro hs
    simp [quoteAddLiquidity, hs]

/-- Claim C10 witness: quoting `(0, 0)` on the uninitialized pool
returns `ok` with zero shares. -/
theorem quoteAddLiquidity_total_witness :
    quoteAddLiquidity initialState 0 0 = Response.ok ⟨sqrti (0 * 0), 0, 0⟩ ∧
    sqrti (0 * 0) = 0 :=
  ⟨(quoteAddLiquidity_total initialState 0 0 (by decide)).2 rfl, rfl⟩

/-- Key arithmetic fact behind the constant-product invariant: adding
`d` to one reserve and removing the truncated quote
`⌊B * d / (A + d)⌋` from the other cannot shrink the product. -/
theorem prod_le_of_div_update (A B d : Nat) (hq : B * d / (A + d) < B) :
    A * B ≤ (A + d) * (B - B * d / (A + d)) := by
  set q := B * d / (A + d) with hqdef
  have hqd : q * (A + d) ≤ B * d := Nat.div_mul_le_self _ _
  obtain ⟨e, he⟩ : ∃ e, B = q + e := ⟨B - q, by omega⟩
  have hsub : B - q = e := by omega
  rw [hsub, he]
  have hqd' : q * (A + d) ≤ (q + e) * d := by rw [← he]; exact hqd
  nlinarith [hqd']

/-- Claim C7: a successful swap in either direction never decreases the
product of the reserves (the fee is taken on the input side before
quoting, and the quote truncates downward). -/
theorem swap_product_nondecreasing :
    (∀ (h s : Nat) (st : PoolState) (dx minDy rec dl : Nat),
      ((swapXForY h s st dx minDy rec dl).2).isOk = true →
      0 < st.reserveX → 0 < st.reserveY →
      st.reserveX * st.reserveY ≤
        (swapXForY h s st dx minDy rec dl).1.reserveX *
        (swapXForY h s st dx minDy rec dl).1.reserveY) ∧
    (∀ (h s : Nat) (st : PoolState) (dy minDx rec dl : Nat),
      ((swapYForX h s st dy minDx rec dl).2).isOk = true →
      0 < st.reserveX → 0 < st.reserveY →
      st.reserveX * st.reserveY ≤
        (swapYForX h s st dy minDx rec dl).1.reserveX *
        (swapYForX h s st dy minDx rec dl).1.reserveY) := by
  constructor
  · intro h s st dx minDy rec dl hok hrx hry
    rcases hf : st.feeRecipient with _ | fa
    · simp [swapXForY, hf, Response.isOk] at hok
    · simp only [swapXForY, hf] at hok ⊢
      split_ifs at hok ⊢ with h1 h2 h3 h4 h5
      any_goals exact Bool.noConfusion hok
      exact prod_le_of_div_update st.reserveX st.reserveY
        (dx - dx * FEE_BPS / BPS_DENOM) h5
  · intro h s st dy minDx rec dl hok hrx hry
    rcases hf : st.feeRecipient with _ | fa
    · simp [swapYForX, hf, Response.isOk] at hok
    · simp only [swapYForX, hf] at hok ⊢
      split_ifs at hok ⊢ with h1 h2 h3 h4 h5
      any_goals exact Bool.noConfusion hok
      have key := prod_le_of_div_update st.reserveY st.reserveX
        (dy - dy * FEE_BPS / BPS_DENOM) h5
      calc st.reserveX * st.reserveY = st.reserveY * st.reserveX :=
            Nat.mul_comm _ _
        _ ≤ (st.reserveY + (dy - dy * FEE_BPS / BPS_DENOM)) *
            (st.reserveX - st.reserveX * (dy - dy * FEE_BPS / BPS_DENOM) /
              (st.reserveY + (dy - dy * FEE_BPS / BPS_DENOM))) := key
        _ = (st.reserveX - st.reserveX * (dy - dy * FEE_BPS / BPS_DENOM) /
              (st.reserveY + (dy - dy * FEE_BPS / BPS_DENOM))) *
            (st.reserveY + (dy - dy * FEE_BPS / BPS_DENOM)) := Nat.mul_comm _ _

/-- Claim C7 witness: the product bound at the concrete swaps against
the initialized pool `poolA`. -/
theorem swap_product_nondecreasing_witness :
    poolA.reserveX * poolA.reserveY ≤
      (swapXForY 0 1 poolA 10000000 0 2 10).1.reserveX *
      (swapXForY 0 1 poolA 10000000 0 2 10).1.reserveY ∧
    poolA.reserveX * poolA.reserveY ≤
      (swapYForX 0 1 poolA 20000000 0 2 10).1.reserveX *
      (swapYForX 0 1 poolA 20000000 0 2 10).1.reserveY :=
  ⟨swap_product_nondecreasing.1 0 1 poolA 10000000 0 2 10
      (by decide) (by decide) (by decide),
   swap_product_nondecreasing.2 0 1 poolA 20000000 0 2 10
      (by decide) (by decide) (by decide)⟩

/-- A positive truncated quotient forces a positive divisor (Clarity
would abort on the division otherwise; in the `Nat` model `a / 0 = 0`). -/
theorem pos_den_of_div_pos (a r : Nat) (h : 0 < a / r) : 0 < r := by
  rcases Nat.eq_zero_or_pos r with h0 | h0
  · rw [h0, Nat.div_zero] at h
    omega
  · exact h0

/-- A proportional withdrawal of fewer than all shares leaves part of
the reserve: `⌊sh * r / supply⌋ < r` when `sh < supply` and `r > 0`. -/
theorem withdraw_lt_reserve (sh supply r : Nat) (hsup : 0 < supply)
    (hr : 0 < r) (hlt : sh < supply) : sh * r / supply < r := by
  rw [Nat.div_lt_iff_lt_mul hsup]
  have h1 : sh * r < supply * r := by nlinarith
  calc sh * r < supply * r := h1
    _ = r * supply := Nat.mul_comm _ _

/-- Claim C2 (amended): every successful swap (either direction) and
every successful `add-liquidity` leaves both reserves positive, and a
successful `remove-liquidity` burning fewer than all outstanding shares
does too; only a full-supply burn (which succeeds) can zero them. -/
theorem reserve_positivity_after_operations :
    (∀ (h s : Nat) (st : PoolState) (dx minDy rec dl : Nat),
      ((swapXForY h s st dx minDy rec dl).2).isOk = true →
      0 < (swapXForY h s st dx minDy rec dl).1.reserveX ∧
      0 < (swapXForY h s st dx minDy rec dl).1.reserveY) ∧
    (∀ (h s : Nat) (st : PoolState) (dy minDx rec dl : Nat),
      ((swapYForX h s st dy minDx rec dl).2).isOk = true →
      0 < (swapYForX h s st dy minDx rec dl).1.reserveX ∧
      0 < (swapYForX h s st dy minDx rec dl).1.reserveY) ∧
    (∀ (s : Nat) (st : PoolState) (ax ay ms : Nat),
      ((addLiquidity s st ax ay ms).2).isOk = true →
      0 < (addLiquidity s st ax ay ms).1.reserveX ∧
      0 < (addLiquidity s st ax ay ms).1.reserveY) ∧
    (∀ (s : Nat) (st : PoolState) (sh mx my : Nat),
      ((removeLiquidity s st sh mx my).2).isOk = true →
      0 < st.reserveX → 0 < st.reserveY → sh < st.totalSupply →
      0 < (removeLiquidity s st sh mx my).1.reserveX ∧
      0 < (removeLiquidity s st sh mx my).1.reserveY) := by
  refine ⟨?_, ?_, ?_, ?_⟩
  · intro h s st dx minDy rec dl hok
    rcases hf : st.feeRecipient with _ | fa
    · simp [swapXForY, hf, Response.isOk] at hok
    · simp only [swapXForY, hf] at hok ⊢
      split_ifs at hok ⊢ with h1 h2 h3 h4 h5
      any_goals exact Bool.noConfusion hok
      exact ⟨Nat.lt_of_lt_of_le h3.1 (Nat.le_add_right _ _),
        Nat.sub_pos_of_lt h5⟩
  · intro h s st dy minDx rec dl hok
    rcases hf : st.feeRecipient with _ | fa
    · simp [swapYForX, hf, Response.isOk] at hok
    · simp only [swapYForX, hf] at hok ⊢
      split_ifs at hok ⊢ with h1 h2 h3 h4 h5
      any_goals exact Bool.noConfusion hok
      exact ⟨Nat.sub_pos_of_lt h5,
        Nat.lt_of_lt_of_le h3.2 (Nat.le_add_right _ _)⟩
  · intro s st ax ay ms hok
    simp only [addLiquidity] at hok ⊢
    split_ifs at hok ⊢ with h1 h2 h3 h4 h5 h6 h7
    any_goals exact Bool.noConfusion hok
    · have hx := pos_den_of_div_pos (ax * st.totalSupply) st.reserveX h5
      have hy := pos_den_of_div_pos (ay * st.totalSupply) st.reserveY
        (Nat.lt_trans h5 h3)
      exact ⟨Nat.lt_of_lt_of_le hx (Nat.le_add_right _ _),
        Nat.lt_of_lt_of_le hy (Nat.le_add_right _ _)⟩
    · have hy := pos_den_of_div_pos (ay * st.totalSupply) st.reserveY h7
      have hx := pos_den_of_div_pos (ax * st.totalSupply) st.reserveX
        (Nat.lt_of_lt_of_le h7 (Nat.le_of_not_lt h3))
      exact ⟨Nat.lt_of_lt_of_le hx (Nat.le_add_right _ _),
        Nat.lt_of_lt_of_le hy (Nat.le_add_right _ _)⟩
  · intro s st sh mx my hok hrx hry hlt
    have hsup : 0 < st.totalSupply := Nat.lt_of_le_of_lt (Nat.zero_le _) hlt
    simp only [removeLiquidity] at hok ⊢
    split_ifs at hok ⊢ with h1 h2 h3 h4
    any_goals exact Bool.noConfusion hok
    exact ⟨Nat.sub_pos_of_lt (withdraw_lt_reserve sh st.totalSupply
        st.reserveX hsup hrx hlt),
      Nat.sub_pos_of_lt (withdraw_lt_reserve sh st.totalSupply
        st.reserveY hsup hry hlt)⟩

/-- Claim C2 witness: positivity after each kind of successful
operation on the concrete initialized pool. -/
theorem reserve_positivity_after_operations_witness :
    (0 < (swapXForY 0 1 poolA 10000000 0 2 10).1.reserveX ∧
     0 < (swapXForY 0 1 poolA 10000000 0 2 10).1.reserveY) ∧
    (0 < (swapYForX 0 1 poolA 20000000 0 2 10).1.reserveX ∧
     0 < (swapYForX 0 1 poolA 20000000 0 2 10).1.reserveY) ∧
    (0 < (addLiquidity 1 poolA 50000000 100000000 0).1.reserveX ∧
     0 < (addLiquidity 1 poolA 50000000 100000000 0).1.reserveY) ∧
    (0 < (removeLiquidity 0 poolA 1 0 0).1.reserveX ∧
     0 < (removeLiquidity 0 poolA 1 0 0).1.reserveY) :=
  ⟨reserve_positivity_after_operations.1 0 1 poolA 10000000 0 2 10 (by decide),
   reserve_positivity_after_operations.2.1 0 1 poolA 20000000 0 2 10 (by decide),
   reserve_positivity_after_operations.2.2.1 1 poolA 50000000 100000000 0 (by decide),
   reserve_positivity_after_operations.2.2.2 0 poolA 1 0 0
     (by decide) (by decide) (by decide) (by decide)⟩

/-- A looked-up balance never exceeds the sum of all balances. -/
theorem lookupBalance_le_sumBalances (l : List (Principal × Nat)) (u : Principal) :
    lookupBalance l u ≤ sumBalances l := by
  induction l with
  | nil => simp [lookupBalance, sumBalances]
  | cons kv rest ih =>
    obtain ⟨k, v⟩ := kv
    simp only [lookupBalance, sumBalances]
    split_ifs
    · omega
    · omega

/-- `map-set` changes the sum of balances by removing the key's old
value and adding the new one (stated additively to avoid truncation). -/
theorem sumBalances_mapSet (l : List (Principal × Nat)) (k : Principal) (v : Nat) :
    sumBalances (mapSet l k v) + lookupBalance l k = sumBalances l + v := by
  induction l with
  | nil => simp [mapSet, sumBalances, lookupBalance]
  | cons kv rest ih =>
    obtain ⟨k', v'⟩ := kv
    by_cases hk : k' = k
    · subst hk
      simp only [mapSet, lookupBalance]
      split_ifs with hcond
      · simp only [sumBalances]
        omega
      · exact absurd trivial hcond
    · simp only [mapSet, lookupBalance, if_neg hk, sumBalances]
      omega

/-- `swap-x-for-y` preserves the accounting invariant. -/
theorem inv_swapXForY (h s : Nat) {st : PoolState} (dx minDy rec dl : Nat)
    (hInv : Inv st) : Inv (swapXForY h s st dx minDy rec dl).1 := by
  rcases hf : st.feeRecipient with _ | fa
  · simp only [swapXForY, hf]
    exact hInv
  · simp only [swapXForY, hf]
    split_ifs with h1 h2 h3 h4 h5
    any_goals exact hInv
    refine ⟨hInv.1, ?_⟩
    intro hc
    have hc' : st.reserveX + (dx - dx * FEE_BPS / BPS_DENOM) = 0 ∨
        st.reserveY - st.reserveY * (dx - dx * FEE_BPS / BPS_DENOM) /
          (st.reserveX + (dx - dx * FEE_BPS / BPS_DENOM)) = 0 := hc
    rcases hc' with hc' | hc'
    · exact absurd (Nat.eq_zero_of_add_eq_zero_right hc')
        (Nat.pos_iff_ne_zero.mp h3.1)
    · have hle := Nat.le_of_sub_eq_zero hc'
      exact absurd (Nat.lt_of_lt_of_le h5 hle) (Nat.lt_irrefl _)

/-- `swap-y-for-x` preserves the accounting invariant. -/
theorem inv_swapYForX (h s : Nat) {st : PoolState} (dy minDx rec dl : Nat)
    (hInv : Inv st) : Inv (swapYForX h s st dy minDx rec dl).1 := by
  rcases hf : st.feeRecipient with _ | fa
  · simp only [swapYForX, hf]
    exact hInv
  · simp only [swapYForX, hf]
    split_ifs with h1 h2 h3 h4 h5
    any_goals exact hInv
    refine ⟨hInv.1, ?_⟩
    intro hc
    have hc' : st.reserveX - st.reserveX * (dy - dy * FEE_BPS / BPS_DENOM) /
          (st.reserveY + (dy - dy * FEE_BPS / BPS_DENOM)) = 0 ∨
        st.reserveY + (dy - dy * FEE_BPS / BPS_DENOM) = 0 := hc
    rcases hc' with hc' | hc'
    · have hle := Nat.le_of_sub_eq_zero hc'
      exact absurd (Nat.lt_of_lt_of_le h5 hle) (Nat.lt_irrefl _)
    · exact absurd (Nat.eq_zero_of_add_eq_zero_right hc')
        (Nat.pos_iff_ne_zero.mp h3.2)

/-- `initialize-pool` preserves the accounting invariant: it is only
reachable with both reserves zero, where the auxiliary invariant forces
an all-zero balance sheet, so overwriting the initializer's entry keeps
the sum equal to the new supply. -/
theorem inv_initializePool (s : Nat) {st : PoolState} (ax ay : Nat)
    (hInv : Inv st) : Inv (initializePool s st ax ay).1 := by
  simp only [initializePool]
  split_ifs with h1 h2 h3
  any_goals exact hInv
  have hsup : st.totalSupply = 0 := hInv.2 (Or.inl h1.1)
  have hsum0 : sumBalances st.lpBalances = 0 := hInv.1.trans hsup
  have hlk : lookupBalance st.lpBalances s ≤ 0 :=
    hsum0 ▸ lookupBalance_le_sumBalances st.lpBalances s
  have hms := sumBalances_mapSet st.lpBalances s (sqrti (ax * ay))
  constructor
  · show sumBalances (mapSet st.lpBalances s (sqrti (ax * ay))) = sqrti (ax * ay)
    omega
  · intro hc
    have hc' : ax = 0 ∨ ay = 0 := hc
    rcases h2 with ⟨hax, hay⟩
    rcases hc' with hc' | hc' <;> omega

/-- `add-liquidity` preserves the accounting invariant. -/
theorem inv_addLiquidity (s : Nat) {st : PoolState} (ax ay ms : Nat)
    (hInv : Inv st) : Inv (addLiquidity s st ax ay ms).1 := by
  simp only [addLiquidity]
  split_ifs with h1 h2 h3 h4 h5 h6 h7
  any_goals exact hInv
  · have hx := pos_den_of_div_pos (ax * st.totalSupply) st.reserveX h5
    have hy := pos_den_of_div_pos (ay * st.totalSupply) st.reserveY
      (Nat.lt_trans h5 h3)
    have hms := sumBalances_mapSet st.lpBalances s
      (getLpBalance st s + ax * st.totalSupply / st.reserveX)
    have hlk : getLpBalance st s = lookupBalance st.lpBalances s := rfl
    have hsum := hInv.1
    constructor
    · show sumBalances (mapSet st.lpBalances s
          (getLpBalance st s + ax * st.totalSupply / st.reserveX)) =
        st.totalSupply + ax * st.totalSupply / st.reserveX
      omega
    · intro hc
      have hc' : st.reserveX + (ax * st.totalSupply / st.reserveX) *
            st.reserveX / st.totalSupply = 0 ∨
          st.reserveY + (ax * st.totalSupply / st.reserveX) *
            st.reserveY / st.totalSupply = 0 := hc
      rcases hc' with hc' | hc'
      · exact absurd (Nat.eq_zero_of_add_eq_zero_right hc')
          (Nat.pos_iff_ne_zero.mp hx)
      · exact absurd (Nat.eq_zero_of_add_eq_zero_right hc')
          (Nat.pos_iff_ne_zero.mp hy)
  · have hy := pos_den_of_div_pos (ay * st.totalSupply) st.reserveY h7
    have hx := pos_den_of_div_pos (ax * st.totalSupply) st.reserveX
      (Nat.lt_of_lt_of_le h7 (Nat.le_of_not_lt h3))
    have hms := sumBalances_mapSet st.lpBalances s
      (getLpBalance st s + ay * st.totalSupply / st.reserveY)
    have hlk : getLpBalance st s = lookupBalance st.lpBalances s := rfl
    have hsum := hInv.1
    constructor
    · show sumBalances (mapSet st.lpBalances s
          (getLpBalance st s + ay * st.totalSupply / st.reserveY)) =
        st.totalSupply + ay * st.totalSupply / st.reserveY
      omega
    · intro hc
      have hc' : st.reserveX + (ay * st.totalSupply / st.reserveY) *
            st.reserveX / st.totalSupply = 0 ∨
          st.reserveY + (ay * st.totalSupply / st.reserveY) *
            st.reserveY / st.totalSupply = 0 := hc
      rcases hc' with hc' | hc'
      · exact absurd (Nat.eq_zero_of_add_eq_zero_right hc')
          (Nat.pos_iff_ne_zero.mp hx)
      · exact absurd (Nat.eq_zero_of_add_eq_zero_right hc')
          (Nat.pos_iff_ne_zero.mp hy)

/-- `remove-liquidity` preserves the accounting invariant: a partial
burn leaves both reserves positive, and a full burn zeroes the supply
together with the reserves. -/
theorem inv_removeLiquidity (s : Nat) {st : PoolState} (sh mx my : Nat)
    (hInv : Inv st) : Inv (removeLiquidity s st sh mx my).1 := by
  simp only [removeLiquidity]
  split_ifs with h1 h2 h3 h4 h5
  any_goals exact hInv
  have hlk : getLpBalance st s = lookupBalance st.lpBalances s := rfl
  have hub := lookupBalance_le_sumBalances st.lpBalances s
  have hms := sumBalances_mapSet st.lpBalances s (getLpBalance st s - sh)
  have hsh_sup : sh ≤ st.totalSupply := by
    have := hInv.1
    omega
  constructor
  · show sumBalances (mapSet st.lpBalances s (getLpBalance st s - sh)) =
      st.totalSupply - sh
    have := hInv.1
    omega
  · intro hc
    have hc' : st.reserveX - sh * st.reserveX / st.totalSupply = 0 ∨
        st.reserveY - sh * st.reserveY / st.totalSupply = 0 := hc
    show st.totalSupply - sh = 0
    rcases Nat.lt_or_ge sh st.totalSupply with hlt | hge
    · have hrx : 0 < st.reserveX := by
        rcases Nat.eq_zero_or_pos st.reserveX with h0 | h0
        · have := hInv.2 (Or.inl h0)
          omega
        · exact h0
      have hry : 0 < st.reserveY := by
        rcases Nat.eq_zero_or_pos st.reserveY with h0 | h0
        · have := hInv.2 (Or.inr h0)
          omega
        · exact h0
      have hx := withdraw_lt_reserve sh st.totalSupply st.reserveX h1 hrx hlt
      have hy := withdraw_lt_reserve sh st.totalSupply st.reserveY h1 hry hlt
      omega
    · omega

/-- A stateful `map` over a batch preserves any property preserved by
the item operation. -/
theorem inv_runBatch {α β : Type} (f : PoolState → α → PoolState × Response β)
    (hf : ∀ (st : PoolState) (a : α), Inv st → Inv (f st a).1) :
    ∀ (items : List α) (st : PoolState), Inv st → Inv (runBatch f st items).1 := by
  intro items
  induction items with
  | nil => intro st hi; exact hi
  | cons a rest ih =>
    intro st hi
    exact ih (f st a).1 (hf st a hi)

/-- `bulk-swap-x-for-y` preserves the accounting invariant. -/
theorem inv_bulkSwapXForY (h s : Nat) {st : PoolState} (swaps : List SwapXItem)
    (hInv : Inv st) : Inv (bulkSwapXForY h s st swaps).1 := by
  simp only [bulkSwapXForY]
  split_ifs with h1
  · exact inv_runBatch _ (fun st' it hi => inv_swapXForY h s it.dx it.minDy
      it.recipient it.deadline hi) swaps st hInv
  · exact hInv

/-- `bulk-swap-y-for-x` preserves the accounting invariant. -/
theorem inv_bulkSwapYForX (h s : Nat) {st : PoolState} (swaps : List SwapYItem)
    (hInv : Inv st) : Inv (bulkSwapYForX h s st swaps).1 := by
  simp only [bulkSwapYForX]
  split_ifs with h1
  · exact inv_runBatch _ (fun st' it hi => inv_swapYForX h s it.dy it.minDx
      it.recipient it.deadline hi) swaps st hInv
  · exact hInv

/-- `bulk-add-liquidity` preserves the accounting invariant. -/
theorem inv_bulkAddLiquidity (s : Nat) {st : PoolState} (adds : List AddLiqItem)
    (hInv : Inv st) : Inv (bulkAddLiquidity s st adds).1 := by
  simp only [bulkAddLiquidity]
  split_ifs with h1
  · exact inv_runBatch _ (fun st' it hi => inv_addLiquidity s it.amountX
      it.amountY it.minShares hi) adds st hInv
  · exact hInv

/-- `bulk-remove-liquidity` preserves the accounting invariant. -/
theorem inv_bulkRemoveLiquidity (s : Nat) {st : PoolState}
    (removals : List RemLiqItem) (hInv : Inv st) :
    Inv (bulkRemoveLiquidity s st removals).1 := by
  simp only [bulkRemoveLiquidity]
  split_ifs with h1
  · exact inv_runBatch _ (fun st' it hi => inv_removeLiquidity s it.shares
      it.minX it.minY hi) removals st hInv
  · exact hInv

/-- Every reachable pool state satisfies the accounting invariant. -/
theorem reachable_inv {st : PoolState} (h : Reachable st) : Inv st := by
  induction h with
  | deployed => exact ⟨rfl, fun _ => rfl⟩
  | stepInitialize s ax ay _ ih => exact inv_initializePool s ax ay ih
  | stepAddLiquidity s ax ay ms _ ih => exact inv_addLiquidity s ax ay ms ih
  | stepRemoveLiquidity s sh mx my _ ih => exact inv_removeLiquidity s sh mx my ih
  | stepSwapX hh s dx minDy rec dl _ ih => exact inv_swapXForY hh s dx minDy rec dl ih
  | stepSwapY hh s dy minDx rec dl _ ih => exact inv_swapYForX hh s dy minDx rec dl ih
  | stepBulkSwapX hh s swaps _ ih => exact inv_bulkSwapXForY hh s swaps ih
  | stepBulkSwapY hh s swaps _ ih => exact inv_bulkSwapYForX hh s swaps ih
  | stepBulkAdd s adds _ ih => exact inv_bulkAddLiquidity s adds ih
  | stepBulkRemove s removals _ ih => exact inv_bulkRemoveLiquidity s removals ih

/-- Claim C8: in the initial state and after any reachable sequence of
operations — singles or batch items, successful or failing — the sum of
all recorded share balances equals `totalShares`. -/
theorem sum_shareBalances_eq_totalShares :
    ∀ st : PoolState, Reachable st → sumBalances st.lpBalances = st.totalSupply :=
  fun _ h => (reachable_inv h).1

/-- Claim C8 witness: the invariant at the concretely initialized pool,
reached by one `initialize-pool` call from the deployed contract. -/
theorem sum_shareBalances_eq_totalShares_witness :
    sumBalances poolA.lpBalances = poolA.totalSupply :=
  sum_shareBalances_eq_totalShares poolA
    (Reachable.stepInitialize 0 100000000 200000000 Reachable.deployed)

end StacksDex
